import Mathlib

/-!
Shallow embedding of the quiz/session state machine of the Cantonese
word-learning application (source: src/App.tsx, src/types.ts).

Randomness: the source shuffles lists with a random-sign sort comparator
(a permutation of the input).  Every shuffle is modelled as an explicit
function parameter `List Word → List Word`; theorems that need it assume
the parameter permutes its input (`IsShuffle`).

Timers: the source keeps two cancelable timer handles, `timerRef` (the
post-answer dwell `setTimeout(proceedQuiz, 5500)`) and `karaokeTimerRef`
(the 1200 ms per-character interval).  They are modelled by the Boolean
fields `pendingAdvance` and `karaokeActive` together with the interval
closure state (`karaokeStep`, `karaokeChars`); firing a timer is a step
function guarded by the corresponding flag, so a cleared timer never runs.
External I/O (speech synthesis, feedback tones, rendering) carries no
session state and is not modelled.
-/

namespace CantonApp

/-- WordEntry of src/types.ts: stable id, display text, pictograph. -/
structure Word where
  id : String
  text : String
  emoji : String
  deriving DecidableEq, Repr

/-- Unit of src/types.ts: themed grouping of word entries. -/
structure Unit where
  id : Nat
  title : String
  icon : String
  words : List Word
  color : String
  deriving DecidableEq, Repr

/-- ViewMode of src/App.tsx line 6. -/
inductive ViewMode where
  | main_menu
  | unit_selection
  | learn
  | exercise
  | result
  deriving DecidableEq, Repr

/-- AppMode of src/App.tsx line 7. -/
inductive AppMode where
  | learn
  | exercise
  deriving DecidableEq, Repr

/-- Application state: the useState hooks of the App component
(src/App.tsx lines 10-29) plus the two timer handles and the karaoke
interval's closure variables (`step`, `chars` of lines 180-199). -/
structure AppState where
  view : ViewMode
  appMode : AppMode
  selectedUnit : Option Unit
  currentIndex : Nat
  showCelebration : Bool
  shuffledWords : List Word
  quizScore : Nat
  quizOptions : List Word
  answeredCorrectly : Option Bool
  selectedOptionId : Option String
  wrongAnswers : List Word
  highlightedCharIndex : Int
  pendingAdvance : Bool
  karaokeActive : Bool
  karaokeStep : Nat
  karaokeChars : List Char
  deriving DecidableEq, Repr

/-- Placeholder used to read a list at an index the theorems keep in
bounds (JavaScript indexing has no total default). -/
def defaultWord : Word := ⟨"", "", ""⟩

/-- Predicate on a modelled shuffle: it permutes its input, as any
comparator-based JavaScript sort does. -/
def IsShuffle (f : List Word → List Word) : Prop :=
  ∀ l : List Word, List.Perm (f l) l

/-- generateGlobalOptions (src/App.tsx lines 97-105): distractors are the
catalog minus every entry sharing the correct id, shuffled, truncated to 3;
the option list is the correct word consed on, shuffled again. -/
def generateGlobalOptions (allWords : List Word)
    (shuffleDistractors shuffleOptions : List Word → List Word)
    (correctWord : Word) : List Word :=
  let distractors :=
    (shuffleDistractors (allWords.filter (fun w => w.id != correctWord.id))).take 3
  shuffleOptions (correctWord :: distractors)

/-- startGlobalChallenge (src/App.tsx lines 116-135): clear both timers,
reset the exercise fields, draw a shuffled 10-word quiz from the catalog
and the options for its first word. -/
def startGlobalChallenge (allWords : List Word)
    (shuffleQuiz shuffleDistractors shuffleOptions : List Word → List Word)
    (s : AppState) : AppState :=
  let shuffled := (shuffleQuiz allWords).take 10
  { s with
    pendingAdvance := false
    karaokeActive := false
    appMode := AppMode.exercise
    selectedUnit := none
    currentIndex := 0
    quizScore := 0
    wrongAnswers := []
    highlightedCharIndex := -1
    shuffledWords := shuffled
    view := ViewMode.exercise
    answeredCorrectly := none
    selectedOptionId := none
    quizOptions := generateGlobalOptions allWords shuffleDistractors shuffleOptions
      (shuffled.getD 0 defaultWord) }

/-- goHome (src/App.tsx lines 137-145): clear both timers, cancel speech,
return to the main menu. -/
def goHome (s : AppState) : AppState :=
  { s with
    pendingAdvance := false
    karaokeActive := false
    view := ViewMode.main_menu
    selectedUnit := none
    showCelebration := false }

/-- nextCard (src/App.tsx lines 147-157): advance the learn walkthrough,
or enter the celebration sub-state from the last card. -/
def nextCard (s : AppState) : AppState :=
  match s.selectedUnit with
  | some u =>
      if s.currentIndex < u.words.length - 1 then
        { s with currentIndex := s.currentIndex + 1 }
      else
        { s with showCelebration := true }
  | none => s

/-- prevCard (src/App.tsx lines 159-165). -/
def prevCard (s : AppState) : AppState :=
  if 0 < s.currentIndex then
    { s with currentIndex := s.currentIndex - 1 }
  else s

/-- handleAnswer (src/App.tsx lines 167-210): ignored unless the question
is unanswered; records the chosen option, grades it against
shuffledWords[currentIndex], updates score or wrongAnswers, arms the
karaoke interval when the word has more than one character, and arms the
5500 ms dwell timer. -/
def handleAnswer (s : AppState) (option : Word) : AppState :=
  if s.answeredCorrectly ≠ none then s
  else
    let correctWord := s.shuffledWords.getD s.currentIndex defaultWord
    let isCorrect := option.id = correctWord.id
    let chars := correctWord.text.toList
    { s with
      selectedOptionId := some option.id
      answeredCorrectly := some isCorrect
      karaokeChars := chars
      karaokeStep := 1
      karaokeActive := decide (1 < chars.length)
      quizScore := if isCorrect then s.quizScore + 1 else s.quizScore
      wrongAnswers := if isCorrect then s.wrongAnswers
                      else s.wrongAnswers ++ [correctWord]
      pendingAdvance := true }

/-- proceedQuiz (src/App.tsx lines 212-224): advance to the next question
(resetting the per-question fields, clearing the karaoke interval and
drawing fresh options), or show the result view from the last question. -/
def proceedQuiz (allWords : List Word)
    (shuffleDistractors shuffleOptions : List Word → List Word)
    (s : AppState) : AppState :=
  if s.currentIndex < s.shuffledWords.length - 1 then
    { s with
      currentIndex := s.currentIndex + 1
      answeredCorrectly := none
      selectedOptionId := none
      highlightedCharIndex := -1
      karaokeActive := false
      quizOptions := generateGlobalOptions allWords shuffleDistractors shuffleOptions
        (s.shuffledWords.getD (s.currentIndex + 1) defaultWord) }
  else
    { s with view := ViewMode.result }

/-- Firing of the dwell timer armed at src/App.tsx line 209: a setTimeout
callback runs only while its handle is still pending (clearTimeout
prevents the run), and a fired one-shot timer is spent. -/
def fireAdvanceTimer (allWords : List Word)
    (shuffleDistractors shuffleOptions : List Word → List Word)
    (s : AppState) : AppState :=
  if s.pendingAdvance then
    proceedQuiz allWords shuffleDistractors shuffleOptions
      { s with pendingAdvance := false }
  else s

/-- Firing of one tick of the karaoke interval (src/App.tsx lines
191-199): while `step` is below the character count it highlights and
speaks character `step` and increments it; otherwise the interval clears
itself.  A cleared interval never ticks. -/
def fireKaraokeTick (s : AppState) : AppState :=
  if s.karaokeActive then
    if s.karaokeStep < s.karaokeChars.length then
      { s with
        highlightedCharIndex := (s.karaokeStep : Int)
        karaokeStep := s.karaokeStep + 1 }
    else
      { s with karaokeActive := false }
  else s

/-- Dwell delay passed to setTimeout at src/App.tsx line 209: the literal
5500, whatever the current word is. -/
def dwellDelayFor (_correctWord : Word) : Nat := 5500

/-- Overall dwell constant of src/App.tsx line 209. -/
def answerDwellMs : Nat := 5500

/-- Per-character karaoke interval of src/App.tsx line 181. -/
def karaokeCharIntervalMs : Nat := 1200

/-- Timeline of the per-character highlight events scheduled by
handleAnswer for a word of n characters: index 0 at 400 ms (the one-shot
of src/App.tsx lines 184-187), then index k at 1200·k ms for
k = 1, …, n-1 (the interval of lines 189-200), as pairs
(time in ms, character index). -/
def karaokeHighlightSchedule (n : Nat) : List (Nat × Nat) :=
  (400, 0) :: (List.range (n - 1)).map (fun k => (1200 * (k + 1), k + 1))

/-- Star rating of the result view (src/App.tsx lines 437-438): the ratio
is quizScore divided by the constant 10. -/
def starsFor (quizScore : Nat) : Nat :=
  let ratio : ℚ := (quizScore : ℚ) / 10
  if ratio = 1 then 3
  else if (7 : ℚ) / 10 ≤ ratio then 2
  else if 0 < ratio then 1
  else 0

/-- Modelled from the spec (scoring rule of §4.2), for comparison with
`starsFor`: star rating as a step function of the ratio
score / length(sourceWords). -/
def specStars (score sourceLen : Nat) : Nat :=
  let ratio : ℚ := (score : ℚ) / (sourceLen : ℚ)
  if ratio = 1 then 3
  else if (7 : ℚ) / 10 ≤ ratio then 2
  else if 0 < ratio then 1
  else 0

/-- Discrete events that can hit an exercise session: an answer tap, the
dwell timer firing, a karaoke interval tick, the home button. -/
inductive QuizEvent where
  | answer (option : Word)
  | advanceFire
  | karaokeFire
  | goHomeEv
  deriving DecidableEq, Repr

/-- Step of the event-driven session semantics. -/
def stepEvent (allWords : List Word)
    (shuffleDistractors shuffleOptions : List Word → List Word)
    (s : AppState) : QuizEvent → AppState
  | QuizEvent.answer option => handleAnswer s option
  | QuizEvent.advanceFire =>
      fireAdvanceTimer allWords shuffleDistractors shuffleOptions s
  | QuizEvent.karaokeFire => fireKaraokeTick s
  | QuizEvent.goHomeEv => goHome s

/-- Run of a sequence of events from a state. -/
def runSteps (allWords : List Word)
    (shuffleDistractors shuffleOptions : List Word → List Word)
    (s : AppState) : List QuizEvent → AppState
  | [] => s
  | e :: es =>
      runSteps allWords shuffleDistractors shuffleOptions
        (stepEvent allWords shuffleDistractors shuffleOptions s e) es

/-- Number of answer submissions an event contributes to the accepted
count: 1 for an answer tap that finds the question unanswered, 0 else. -/
def acceptedOf (s : AppState) : QuizEvent → Nat
  | QuizEvent.answer _ => if s.answeredCorrectly = none then 1 else 0
  | _ => 0

/-- Accepted answer submissions along a run of events. -/
def acceptedCount (allWords : List Word)
    (shuffleDistractors shuffleOptions : List Word → List Word)
    (s : AppState) : List QuizEvent → Nat
  | [] => 0
  | e :: es =>
      acceptedOf s e +
        acceptedCount allWords shuffleDistractors shuffleOptions
          (stepEvent allWords shuffleDistractors shuffleOptions s e) es

/-! Sample data used by the witness theorems. -/

/-- Sample word with id a. -/
def wordA : Word := ⟨"a", "aa", "A"⟩

/-- Sample word with id b. -/
def wordB : Word := ⟨"b", "bbb", "B"⟩

/-- Sample word with id c. -/
def wordC : Word := ⟨"c", "cc", "C"⟩

/-- Sample word with id d. -/
def wordD : Word := ⟨"d", "dd", "D"⟩

/-- Sample four-word catalog. -/
def sampleWords : List Word := [wordA, wordB, wordC, wordD]

/-- Sample unit holding two words. -/
def sampleUnit : Unit := ⟨1, "t", "i", [wordA, wordB], "col"⟩

/-- Freshly loaded application state (the initial useState values of
src/App.tsx lines 10-29). -/
def idleState : AppState :=
  { view := ViewMode.main_menu
    appMode := AppMode.learn
    selectedUnit := none
    currentIndex := 0
    showCelebration := false
    shuffledWords := []
    quizScore := 0
    quizOptions := []
    answeredCorrectly := none
    selectedOptionId := none
    wrongAnswers := []
    highlightedCharIndex := -1
    pendingAdvance := false
    karaokeActive := false
    karaokeStep := 0
    karaokeChars := [] }

/-- Sample exercise state on question 0 of the four sample words. -/
def quizStateA : AppState :=
  { idleState with
    view := ViewMode.exercise
    appMode := AppMode.exercise
    shuffledWords := sampleWords }

/-- Sample exercise state on the last of the four sample words. -/
def lastQState : AppState :=
  { quizStateA with currentIndex := 3 }

/-- Sample learn state on the last card of the sample unit. -/
def learnStateA : AppState :=
  { idleState with
    view := ViewMode.learn
    selectedUnit := some sampleUnit
    currentIndex := 1 }

/-- Ten distinct sample words, the fixed quiz length of the source. -/
def tenWords : List Word :=
  [⟨"e0", "t0", "E0"⟩, ⟨"e1", "t1", "E1"⟩, ⟨"e2", "t2", "E2"⟩,
   ⟨"e3", "t3", "E3"⟩, ⟨"e4", "t4", "E4"⟩, ⟨"e5", "t5", "E5"⟩,
   ⟨"e6", "t6", "E6"⟩, ⟨"e7", "t7", "E7"⟩, ⟨"e8", "t8", "E8"⟩,
   ⟨"e9", "t9", "E9"⟩]

/-- Sample exercise state over the ten sample words with score 7. -/
def quizStateTen : AppState :=
  { quizStateA with shuffledWords := tenWords, quizScore := 7 }

/-- Helper: in a list whose ids are pairwise distinct, a member's id is
matched by exactly one element. -/
theorem countP_id_eq_one {pool : List Word} {w : Word} (hw : w ∈ pool)
    (hids : (pool.map Word.id).Nodup) :
    pool.countP (fun x => x.id == w.id) = 1 := by
  induction pool with
  | nil => cases hw
  | cons a t ih =>
    simp only [List.map_cons, List.nodup_cons] at hids
    obtain ⟨hnotin, hnd⟩ := hids
    rcases List.mem_cons.mp hw with rfl | hmem
    · have h0 : t.countP (fun x => x.id == w.id) = 0 := by
        rw [List.countP_eq_zero]
        intro x hx hbeq
        have hxa : x.id = w.id := by simpa using hbeq
        exact hnotin (hxa ▸ List.mem_map_of_mem Word.id hx)
      simp [List.countP_cons, h0]
    · have h1 := ih hmem hnd
      have hne : ¬ (a.id == w.id) = true := by
        intro hbeq
        have hxa : a.id = w.id := by simpa using hbeq
        exact hnotin (hxa ▸ List.mem_map_of_mem Word.id hmem)
      simp [List.countP_cons, hne, h1]

/-- Helper: removing the entries sharing a member's id from a list of
pairwise-distinct ids removes exactly one element. -/
theorem filter_length_of_nodup_ids {pool : List Word} {w : Word}
    (hw : w ∈ pool) (hids : (pool.map Word.id).Nodup) :
    (pool.filter (fun x => x.id != w.id)).length = pool.length - 1 := by
  induction pool with
  | nil => cases hw
  | cons a t ih =>
    simp only [List.map_cons, List.nodup_cons] at hids
    obtain ⟨hnotin, hnd⟩ := hids
    rcases List.mem_cons.mp hw with rfl | hmem
    · have hall : t.filter (fun x => x.id != w.id) = t := by
        rw [List.filter_eq_self]
        intro x hx
        rw [bne_iff_ne]
        intro hxa
        exact hnotin (hxa ▸ List.mem_map_of_mem Word.id hx)
      have hfa : (w.id != w.id) = false := by simp
      simp [List.filter_cons, hfa, hall]
    · have h1 := ih hmem hnd
      have hne : (a.id != w.id) = true := by
        rw [bne_iff_ne]
        intro hxa
        exact hnotin (hxa ▸ List.mem_map_of_mem Word.id hmem)
      have hpos : 0 < t.length := List.length_pos_of_mem hmem
      simp only [List.filter_cons, hne, if_true, List.length_cons, h1]
      omega

/-! Claim theorems. -/

/-- Claim C1 (amended): the star rating of the result view is a step
function of score/10 — 3 stars at score 10, 2 at score ≥ 7, 1 at
score > 0, 0 at score 0 — independent of length(sourceWords); it agrees
with the spec's ratio score/length(sourceWords) exactly when that length
is 10. -/
theorem stars_step_of_score_over_ten (s : AppState)
    (hlen : s.shuffledWords.length = 10) :
    (∀ q : Nat, starsFor q =
      if q = 10 then 3 else if 7 ≤ q then 2 else if 0 < q then 1 else 0) ∧
    starsFor s.quizScore = specStars s.quizScore s.shuffledWords.length := by
  have key : ∀ q : Nat, starsFor q =
      if q = 10 then 3 else if 7 ≤ q then 2 else if 0 < q then 1 else 0 := by
    intro q
    have h1 : ((q : ℚ) / 10 = 1) ↔ q = 10 := by
      rw [div_eq_one_iff_eq (by norm_num : (10 : ℚ) ≠ 0)]
      norm_cast
    have h2 : ((7 : ℚ) / 10 ≤ (q : ℚ) / 10) ↔ 7 ≤ q := by
      rw [div_le_div_iff_of_pos_right (by norm_num : (0 : ℚ) < 10)]
      norm_cast
    have h3 : ((0 : ℚ) < (q : ℚ) / 10) ↔ 0 < q := by
      rw [lt_div_iff₀ (by norm_num : (0 : ℚ) < 10)]
      simp
    simp only [starsFor]
    simp only [h1, h2, h3]
  refine ⟨key, ?_⟩
  rw [hlen]
  simp [starsFor, specStars]

/-- Witness for the amended C1 at a concrete state: the length-10 run
with score 7 rates 2 stars under both formulations. -/
theorem stars_step_of_score_over_ten_witness :
    starsFor quizStateTen.quizScore =
      specStars quizStateTen.quizScore quizStateTen.shuffledWords.length :=
  (stars_step_of_score_over_ten quizStateTen rfl).2

/-- Counterexample to C1 as stated: for a run whose sourceWords has
length 5, a full score of 5 has ratio score/length = 1, so the claim
predicts 3 stars, but the result view divides by the constant 10 and
shows 1 star. -/
theorem stars_ignore_source_length_counterexample :
    specStars 5 5 = 3 ∧ starsFor 5 = 1 := by
  constructor
  · norm_num [specStars]
  · norm_num [starsFor]

/-- Claim C4: for every pool with pairwise distinct ids containing the
correct entry w, the option list holds exactly one entry whose id is
w.id and its size is min(k+1, |pool|) for the fixed distractor count
k = 3; an undersized pool yields a smaller list rather than a failure. -/
theorem sample_one_correct_min_size
    (pool : List Word) (shD shO : List Word → List Word)
    (hD : IsShuffle shD) (hO : IsShuffle shO)
    (w : Word) (hw : w ∈ pool)
    (hids : (pool.map Word.id).Nodup) :
    (generateGlobalOptions pool shD shO w).countP (fun x => x.id == w.id) = 1 ∧
    (generateGlobalOptions pool shD shO w).length = min (3 + 1) pool.length := by
  have hpos : 0 < pool.length := List.length_pos_of_mem hw
  have hflen := filter_length_of_nodup_ids hw hids
  have hpermD := hD (pool.filter (fun x => x.id != w.id))
  have hpermO := hO
    (w :: ((shD (pool.filter (fun x => x.id != w.id))).take 3))
  constructor
  · rw [generateGlobalOptions, hpermO.countP_eq]
    have h0 : ((shD (pool.filter (fun x => x.id != w.id))).take 3).countP
        (fun x => x.id == w.id) = 0 := by
      rw [List.countP_eq_zero]
      intro x hx hbeq
      have hx1 : x ∈ shD (pool.filter (fun x => x.id != w.id)) :=
        List.take_subset _ _ hx
      have hx2 : x ∈ pool.filter (fun x => x.id != w.id) :=
        hpermD.mem_iff.mp hx1
      have hne : (x.id != w.id) = true := (List.mem_filter.mp hx2).2
      rw [bne_iff_ne] at hne
      exact hne (by simpa using hbeq)
    simp [List.countP_cons, h0]
  · rw [generateGlobalOptions, hpermO.length_eq]
    simp only [List.length_cons, List.length_take, hpermD.length_eq, hflen]
    omega

/-- Witness for C4 at a concrete input: options drawn for wordB from the
four-word sample pool with identity shuffles. -/
theorem sample_one_correct_min_size_witness :
    (generateGlobalOptions sampleWords id id wordB).countP
      (fun x => x.id == wordB.id) = 1 ∧
    (generateGlobalOptions sampleWords id id wordB).length =
      min (3 + 1) sampleWords.length :=
  sample_one_correct_min_size sampleWords id id
    (fun l => List.Perm.refl l) (fun l => List.Perm.refl l)
    wordB (by decide) (by decide)

/-- Claim C2: for every question whose answerState is unanswered,
submitting the correct option (id equal to sourceWords[position].id)
increments score by exactly 1 and sets answerState to correct; once
answerState is no longer unanswered, any further submission changes no
session state at all. -/
theorem submit_correct_scores_then_locks (s : AppState) (option : Word)
    (hun : s.answeredCorrectly = none)
    (hid : option.id = (s.shuffledWords.getD s.currentIndex defaultWord).id) :
    (handleAnswer s option).quizScore = s.quizScore + 1 ∧
    (handleAnswer s option).answeredCorrectly = some true ∧
    ∀ t : AppState, t.answeredCorrectly ≠ none →
      ∀ o : Word, handleAnswer t o = t := by
  refine ⟨?_, ?_, ?_⟩
  · simp [handleAnswer, hun, hid]
  · simp [handleAnswer, hun, hid]
  · intro t ht o
    simp [handleAnswer, ht]

/-- Witness for C2 at a concrete state: answering question 0 of the
sample quiz with the matching option. -/
theorem submit_correct_scores_then_locks_witness :
    (handleAnswer quizStateA wordA).quizScore = quizStateA.quizScore + 1 ∧
    (handleAnswer quizStateA wordA).answeredCorrectly = some true :=
  ⟨(submit_correct_scores_then_locks quizStateA wordA rfl rfl).1,
   (submit_correct_scores_then_locks quizStateA wordA rfl rfl).2.1⟩

/-- Claim C3: for every question whose answerState is unanswered,
submitting an incorrect option appends exactly one entry, the correct
entry sourceWords[position] (not the chosen option), to missedEntries,
sets answerState to incorrect, and leaves score unchanged. -/
theorem submit_incorrect_appends_correct_entry (s : AppState) (option : Word)
    (hun : s.answeredCorrectly = none)
    (hid : option.id ≠ (s.shuffledWords.getD s.currentIndex defaultWord).id) :
    (handleAnswer s option).wrongAnswers =
      s.wrongAnswers ++ [s.shuffledWords.getD s.currentIndex defaultWord] ∧
    (handleAnswer s option).answeredCorrectly = some false ∧
    (handleAnswer s option).quizScore = s.quizScore ∧
    s.shuffledWords.getD s.currentIndex defaultWord ≠ option := by
  have hid2 : ¬ option.id = (s.shuffledWords[s.currentIndex]?.getD defaultWord).id := by
    simpa [List.getD_eq_getElem?_getD] using hid
  refine ⟨?_, ?_, ?_, ?_⟩
  · simp [handleAnswer, hun, hid2]
  · simp [handleAnswer, hun, hid2]
  · simp [handleAnswer, hun, hid2]
  · intro he
    exact hid (by rw [he])

/-- Witness for C3 at a concrete state: answering question 0 of the
sample quiz with a wrong option. -/
theorem submit_incorrect_appends_correct_entry_witness :
    (handleAnswer quizStateA wordB).wrongAnswers =
      quizStateA.wrongAnswers ++ [wordA] ∧
    (handleAnswer quizStateA wordB).answeredCorrectly = some false ∧
    (handleAnswer quizStateA wordB).quizScore = quizStateA.quizScore :=
  ⟨(submit_incorrect_appends_correct_entry quizStateA wordB rfl
      (by decide)).1,
   (submit_incorrect_appends_correct_entry quizStateA wordB rfl
      (by decide)).2.1,
   (submit_incorrect_appends_correct_entry quizStateA wordB rfl
      (by decide)).2.2.1⟩

/-- Claim C5: from the last index of an exercise run, proceedQuiz moves
the view to result leaving score, missedEntries and position unchanged
(the whole state apart from the view is unchanged), and in learn mode
nextCard from the last card enters the celebration sub-state instead of
moving position past the end. -/
theorem advance_from_last_index (allW : List Word)
    (shD shO : List Word → List Word) (s : AppState)
    (hlast : s.currentIndex = s.shuffledWords.length - 1)
    (u : Unit) (t : AppState)
    (hu : t.selectedUnit = some u)
    (hlearnLast : t.currentIndex = u.words.length - 1) :
    proceedQuiz allW shD shO s = { s with view := ViewMode.result } ∧
    nextCard t = { t with showCelebration := true } := by
  constructor
  · simp [proceedQuiz, hlast]
  · simp [nextCard, hu, hlearnLast]

/-- Witness for C5 at concrete states: question 3 of the four-word quiz
and card 1 of the two-word learn unit. -/
theorem advance_from_last_index_witness :
    proceedQuiz sampleWords id id lastQState =
      { lastQState with view := ViewMode.result } ∧
    nextCard learnStateA = { learnStateA with showCelebration := true } :=
  advance_from_last_index sampleWords id id lastQState rfl
    sampleUnit learnStateA rfl rfl

/-- Claim C6: starting an exercise run builds sourceWords as a shuffled
selection of exactly min(10, |catalog|) catalog entries without
repetition, resets position, score and missedEntries, enters the
exercise view with the question unanswered, and immediately draws the
option set for the first word. -/
theorem start_resets_and_caps_run
    (pool : List Word) (shQ shD shO : List Word → List Word)
    (hQ : IsShuffle shQ) (hnd : pool.Nodup) (s : AppState) :
    (startGlobalChallenge pool shQ shD shO s).shuffledWords.length =
      min 10 pool.length ∧
    (∀ w ∈ (startGlobalChallenge pool shQ shD shO s).shuffledWords,
      w ∈ pool) ∧
    (startGlobalChallenge pool shQ shD shO s).shuffledWords.Nodup ∧
    (startGlobalChallenge pool shQ shD shO s).currentIndex = 0 ∧
    (startGlobalChallenge pool shQ shD shO s).quizScore = 0 ∧
    (startGlobalChallenge pool shQ shD shO s).wrongAnswers = [] ∧
    (startGlobalChallenge pool shQ shD shO s).view = ViewMode.exercise ∧
    (startGlobalChallenge pool shQ shD shO s).answeredCorrectly = none ∧
    (startGlobalChallenge pool shQ shD shO s).quizOptions =
      generateGlobalOptions pool shD shO
        ((startGlobalChallenge pool shQ shD shO s).shuffledWords.getD 0
          defaultWord) := by
  refine ⟨?_, ?_, ?_, rfl, rfl, rfl, rfl, rfl, rfl⟩
  · show ((shQ pool).take 10).length = min 10 pool.length
    rw [List.length_take, (hQ pool).length_eq]
  · intro w hwmem
    have hw1 : w ∈ shQ pool :=
      List.take_subset 10 (shQ pool) hwmem
    exact (hQ pool).mem_iff.mp hw1
  · exact (List.take_sublist 10 (shQ pool)).nodup
      ((hQ pool).nodup_iff.mpr hnd)

/-- Witness for C6 at a concrete input: starting from the four-word
sample catalog with identity shuffles. -/
theorem start_resets_and_caps_run_witness :
    (startGlobalChallenge sampleWords id id id idleState).shuffledWords.length =
      min 10 sampleWords.length ∧
    (startGlobalChallenge sampleWords id id id idleState).shuffledWords.Nodup ∧
    (startGlobalChallenge sampleWords id id id idleState).quizScore = 0 ∧
    (startGlobalChallenge sampleWords id id id idleState).quizOptions =
      generateGlobalOptions sampleWords id id
        ((startGlobalChallenge sampleWords id id id
            idleState).shuffledWords.getD 0 defaultWord) :=
  ⟨(start_resets_and_caps_run sampleWords id id id
      (fun l => List.Perm.refl l) (by decide) idleState).1,
   (start_resets_and_caps_run sampleWords id id id
      (fun l => List.Perm.refl l) (by decide) idleState).2.2.1,
   (start_resets_and_caps_run sampleWords id id id
      (fun l => List.Perm.refl l) (by decide) idleState).2.2.2.2.1,
   (start_resets_and_caps_run sampleWords id id id
      (fun l => List.Perm.refl l) (by decide) idleState).2.2.2.2.2.2.2.2⟩

/-- Claim C7: from every state, goHome cancels the pending advance timer
and the karaoke timer, discards the active session (no unit stays
selected, no celebration), and enters the main menu. -/
theorem goHome_teardown (s : AppState) :
    (goHome s).view = ViewMode.main_menu ∧
    (goHome s).pendingAdvance = false ∧
    (goHome s).karaokeActive = false ∧
    (goHome s).selectedUnit = none ∧
    (goHome s).showCelebration = false := by
  simp [goHome]

/-- Claim C8: after goHome tears the session down, both timer handles are
cleared, so a stale dwell-timer firing or karaoke tick arriving
afterwards is a no-op: it produces no observable state change. -/
theorem stale_timer_fire_after_goHome_is_noop (allW : List Word)
    (shD shO : List Word → List Word) (s : AppState) :
    fireAdvanceTimer allW shD shO (goHome s) = goHome s ∧
    fireKaraokeTick (goHome s) = goHome s := by
  constructor
  · simp [fireAdvanceTimer, goHome]
  · simp [fireKaraokeTick, goHome]

/-- Sample exercise state just after an answer, with the dwell timer
armed. -/
def answeredState : AppState :=
  { quizStateA with answeredCorrectly := some true, pendingAdvance := true }

/-- Claim C9: the dwell delay handed to the advance timer is the fixed
constant 5500 ms for every word; the karaoke stepping visits exactly the
character indices 0, …, n-1 in strictly increasing order, index k ≥ 1 at
the fixed interval multiple 1200·k ms; and the armed dwell timer fires
(running proceedQuiz) regardless of the karaoke fields of the state. -/
theorem dwell_fixed_and_karaoke_increasing
    (n : Nat) (hn : 1 ≤ n)
    (allW : List Word) (shD shO : List Word → List Word)
    (s : AppState) (hp : s.pendingAdvance = true) :
    (∀ w : Word, dwellDelayFor w = answerDwellMs) ∧
    (karaokeHighlightSchedule n).map Prod.snd = List.range n ∧
    List.Pairwise (fun a b : Nat × Nat => a.1 < b.1)
      (karaokeHighlightSchedule n) ∧
    (∀ k, 1 ≤ k → k < n → (karaokeHighlightSchedule n)[k]? =
      some (karaokeCharIntervalMs * k, k)) ∧
    fireAdvanceTimer allW shD shO s =
      proceedQuiz allW shD shO { s with pendingAdvance := false } := by
  refine ⟨fun w => rfl, ?_, ?_, ?_, ?_⟩
  · cases n with
    | zero => exact absurd hn (by simp)
    | succ m =>
      simp [karaokeHighlightSchedule, List.range_succ_eq_map,
        List.map_map, Function.comp, Nat.succ_eq_add_one]
  · rw [karaokeHighlightSchedule, List.pairwise_cons]
    constructor
    · intro b hb
      obtain ⟨k, hk, rfl⟩ := List.mem_map.mp hb
      show 400 < 1200 * (k + 1)
      omega
    · rw [List.pairwise_map]
      refine List.Pairwise.imp ?_ (List.sorted_lt_range (n - 1))
      intro a b h
      show 1200 * (a + 1) < 1200 * (b + 1)
      omega
  · intro k hk1 hkn
    obtain ⟨j, rfl⟩ : ∃ j, k = j + 1 := ⟨k - 1, by omega⟩
    have hj : j < n - 1 := by omega
    simp [karaokeHighlightSchedule, List.getElem?_range hj,
      karaokeCharIntervalMs, Nat.mul_add]
  · simp [fireAdvanceTimer, hp]

/-- Witness for C9 at concrete inputs: a two-character word and the
sample answered state with the dwell timer pending. -/
theorem dwell_fixed_and_karaoke_increasing_witness :
    (karaokeHighlightSchedule 2).map Prod.snd = List.range 2 ∧
    fireAdvanceTimer sampleWords id id answeredState =
      proceedQuiz sampleWords id id
        { answeredState with pendingAdvance := false } :=
  ⟨(dwell_fixed_and_karaoke_increasing 2 (by omega) sampleWords id id
      answeredState rfl).2.1,
   (dwell_fixed_and_karaoke_increasing 2 (by omega) sampleWords id id
      answeredState rfl).2.2.2.2⟩

/-- Helper: one event changes quizScore + |wrongAnswers| by exactly the
number of accepted submissions it carries (1 for an answer tap on an
unanswered question, 0 otherwise). -/
theorem stepEvent_score_plus_missed (allW : List Word)
    (shD shO : List Word → List Word) (s : AppState) (e : QuizEvent) :
    (stepEvent allW shD shO s e).quizScore +
      (stepEvent allW shD shO s e).wrongAnswers.length =
    s.quizScore + s.wrongAnswers.length + acceptedOf s e := by
  cases e with
  | answer o =>
    by_cases h : s.answeredCorrectly = none
    · by_cases hc :
          o.id = (s.shuffledWords.getD s.currentIndex defaultWord).id
      · simp only [stepEvent, handleAnswer, acceptedOf, h, hc]
        simp [hc]
        omega
      · have hc2 :
            ¬ o.id = (s.shuffledWords[s.currentIndex]?.getD defaultWord).id := by
          simpa [List.getD_eq_getElem?_getD] using hc
        simp [stepEvent, handleAnswer, acceptedOf, h, hc2]
        omega
    · simp [stepEvent, handleAnswer, acceptedOf, h]
  | advanceFire =>
    by_cases h : s.pendingAdvance
    · by_cases h2 : s.currentIndex < s.shuffledWords.length - 1
      · simp [stepEvent, fireAdvanceTimer, proceedQuiz, acceptedOf, h, h2]
      · simp [stepEvent, fireAdvanceTimer, proceedQuiz, acceptedOf, h, h2]
    · simp [stepEvent, fireAdvanceTimer, acceptedOf, h]
  | karaokeFire =>
    by_cases h : s.karaokeActive
    · by_cases h2 : s.karaokeStep < s.karaokeChars.length
      · simp [stepEvent, fireKaraokeTick, acceptedOf, h, h2]
      · simp [stepEvent, fireKaraokeTick, acceptedOf, h, h2]
    · simp [stepEvent, fireKaraokeTick, acceptedOf, h]
  | goHomeEv => simp [stepEvent, goHome, acceptedOf]

/-- Helper: along any event sequence, quizScore + |wrongAnswers| grows by
exactly the number of accepted submissions. -/
theorem runSteps_score_plus_missed (allW : List Word)
    (shD shO : List Word → List Word) (events : List QuizEvent) :
    ∀ s : AppState,
    (runSteps allW shD shO s events).quizScore +
      (runSteps allW shD shO s events).wrongAnswers.length =
    s.quizScore + s.wrongAnswers.length +
      acceptedCount allW shD shO s events := by
  induction events with
  | nil =>
    intro s
    simp [runSteps, acceptedCount]
  | cons e es ih =>
    intro s
    have h1 := stepEvent_score_plus_missed allW shD shO s e
    have h2 := ih (stepEvent allW shD shO s e)
    simp only [runSteps, acceptedCount]
    omega

/-- Claim C10: in every exercise run, after any sequence of events,
quizScore + |wrongAnswers| equals the number of accepted answer
submissions so far (starting a run resets both), so the score never
exceeds the number of questions answered. -/
theorem score_plus_missed_equals_accepted
    (pool : List Word) (shQ shD shO : List Word → List Word)
    (s0 : AppState) (events : List QuizEvent) :
    (runSteps pool shD shO (startGlobalChallenge pool shQ shD shO s0)
        events).quizScore +
      (runSteps pool shD shO (startGlobalChallenge pool shQ shD shO s0)
        events).wrongAnswers.length =
      acceptedCount pool shD shO
        (startGlobalChallenge pool shQ shD shO s0) events ∧
    (runSteps pool shD shO (startGlobalChallenge pool shQ shD shO s0)
        events).quizScore ≤
      acceptedCount pool shD shO
        (startGlobalChallenge pool shQ shD shO s0) events := by
  have h := runSteps_score_plus_missed pool shD shO events
    (startGlobalChallenge pool shQ shD shO s0)
  have hz : (startGlobalChallenge pool shQ shD shO s0).quizScore = 0 := rfl
  have hwz :
      (startGlobalChallenge pool shQ shD shO s0).wrongAnswers = [] := rfl
  rw [hz, hwz] at h
  simp only [List.length_nil, Nat.zero_add] at h
  exact ⟨h, by omega⟩

end CantonApp
